import Mathlib

/-!
Verification of the Legal-Track client-intake wizard.

The definitions below are a shallow embedding of the TypeScript source
(`src/unnamed/part_000`): the mock backend (conflict screening, matter
creation), the pricing computations of the payment step and the engagement
letter, the signature gate, the contact/details form validation, and the
step-index navigation of the intake wizard.  JavaScript strings are
modelled by `String` / `List Char`, numbers by `Int` / `ℚ` (all arithmetic
in the source is exact on these values), `undefined` by `Option`, and
the truthiness tests of the source are spelled out explicitly.
-/

namespace LegalTrack

/-- Jurisdictions of the eligibility step (source `type Jurisdiction`). -/
inductive Jurisdiction
  | TX
  | FL
  | CO
  | OTHER
deriving DecidableEq, Repr

/-- Turnaround urgency (source `'standard' | 'rush'`). -/
inductive Urgency
  | standard
  | rush
deriving DecidableEq, Repr

/-- A catalog entry (source `interface ServiceTrack`; the icon, which is a
React component, is omitted).  Service ids are strings because the AI
response is parsed from JSON and used unchecked. -/
structure ServiceTrack where
  id : String
  title : String
  basePrice : ℚ
deriving DecidableEq, Repr

/-- The service catalog (source `const SERVICES`), in source order. -/
def SERVICES : List ServiceTrack :=
  [ ⟨"contract_review", "Contract Review", 250⟩,
    ⟨"demand_letter", "Demand Letter", 200⟩,
    ⟨"affidavit", "Affidavit", 150⟩,
    ⟨"deposition_questionnaire", "Deposition Questionnaire", 350⟩,
    ⟨"motion", "Motion", 500⟩,
    ⟨"filing_lawsuit", "Filing a Lawsuit", 800⟩,
    ⟨"filing_answer", "Filing an Answer", 600⟩,
    ⟨"attorney_review", "Attorney Assessment & Strategy", 100⟩ ]

/-- An uploaded document (source `interface SecureDocument`). -/
structure SecureDocument where
  id : String
  name : String
  size : Int
  type : String
  secureUrl : String
  uploadedAt : String
deriving DecidableEq, Repr

/-- Contact fields of the intake record. -/
structure Contact where
  name : String
  email : String
  phone : String
deriving DecidableEq, Repr

/-- The signature block stored on the intake record. -/
structure SignatureData where
  signedName : String
  timestamp : String
  agreed : Bool
deriving DecidableEq, Repr

/-- The dynamic `details: Record<string, any>` object, restricted to the
fields the source ever reads: `opposingParty` and `description` are text
inputs, `pageCount` is produced by `parseInt` on a number input (`none`
models both an absent field and a `NaN` parse, for which every `>`
comparison in the source is false). -/
structure Details where
  opposingParty : Option String
  description : Option String
  pageCount : Option Int
deriving DecidableEq, Repr

/-- Source `interface IntakeData` (the `triageDescription` field is never
written by the source and is omitted). -/
structure IntakeData where
  jurisdiction : Jurisdiction
  serviceId : Option String
  triageReasoning : Option String
  urgency : Urgency
  details : Details
  documents : List SecureDocument
  contact : Contact
  signature : Option SignatureData
deriving DecidableEq, Repr

/-- Matter status (source union type). -/
inductive MatterStatus
  | new
  | reviewing
  | conflict_flagged
  | in_progress
  | completed
deriving DecidableEq, Repr

/-- Source `interface AuditEvent`. -/
structure AuditEvent where
  timestamp : String
  action : String
  details : Option String
deriving DecidableEq, Repr

/-- Source `interface Matter`. -/
structure Matter where
  id : String
  status : MatterStatus
  data : IntakeData
  createdAt : String
  price : ℚ
  auditLog : List AuditEvent
deriving DecidableEq, Repr

/-- Source `MockBackend.normalize`: `str.toLowerCase().replace(/[^a-z0-9]/g, '')`,
i.e. lowercase the string and keep only the characters `a`-`z`, `0`-`9`.
The result is kept as a character list. -/
def normalize (s : String) : List Char :=
  (s.toList.map Char.toLower).filter
    (fun c => ('a' ≤ c && c ≤ 'z') || ('0' ≤ c && c ≤ '9'))

/-- Source `MockBackend.conflictBlacklist`. -/
def conflictBlacklist : List String := ["evil corp", "bad guy", "fraud llc"]

/-- Source `MockBackend.checkConflict`: the guard `if (!name) return false` is the
empty-string test (the only falsy string), then some blacklist entry's
normalization must occur inside the normalized input (`String.includes`). -/
def checkConflict (name : String) : Bool :=
  if name = "" then false
  else conflictBlacklist.any (fun entry => decide (normalize entry <:+: normalize name))

/-- The conflict decision of `MockBackend.createMatter`:
`data.details.opposingParty ? this.checkConflict(...) : false`, with JS
truthiness of the string field unfolded (absent and `""` are falsy). -/
def matterConflict (details : Details) : Bool :=
  match details.opposingParty with
  | none => false
  | some op => if op = "" then false else checkConflict op

/-- Source `MockBackend.createMatter`.  The backend state is its `matters` array;
the random id and the clock readings are passed in as arguments.  Returns
the new state together with the created matter. -/
def createMatter (matters : List Matter) (data : IntakeData) (price : ℚ)
    (freshId now : String) : List Matter × Matter :=
  let isConflict := matterConflict data.details
  let signedTs : String :=
    match data.signature with
    | some sig => sig.timestamp
    | none => now
  let signedBy : String :=
    match data.signature with
    | some sig => sig.signedName
    | none => "undefined"
  let baseLog : List AuditEvent :=
    [ ⟨now, "MATTER_CREATED", some "Intake submitted"⟩,
      ⟨signedTs, "AGREEMENT_SIGNED", some ("Signed by " ++ signedBy)⟩ ]
  let log : List AuditEvent :=
    if isConflict then
      baseLog ++ [⟨now, "CONFLICT_DETECTED",
        some ("Potential match for: " ++
          (match data.details.opposingParty with
           | some op => op
           | none => "undefined"))⟩]
    else baseLog
  let matter : Matter :=
    { id := freshId
      status := if isConflict then MatterStatus.conflict_flagged else MatterStatus.new
      data := data
      createdAt := now
      price := price
      auditLog := log }
  (matters ++ [matter], matter)

/-- Source `MockBackend.getMatters`. -/
def getMatters (matters : List Matter) : List Matter := matters

theorem checkConflict_iff (op : String) (h : op ≠ "") :
    checkConflict op = true ↔
      ∃ entry ∈ conflictBlacklist, normalize entry <:+: normalize op := by
  simp [checkConflict, h]

theorem matterConflict_iff (d : Details) :
    matterConflict d = true ↔
      ∃ op, d.opposingParty = some op ∧ op ≠ "" ∧
        ∃ entry ∈ conflictBlacklist, normalize entry <:+: normalize op := by
  rcases hop : d.opposingParty with _ | op
  · simp [matterConflict, hop]
  · by_cases he : op = ""
    · simp [matterConflict, hop, he]
    · simp [matterConflict, hop, he, checkConflict_iff op he]

theorem createMatter_status_eq (matters : List Matter) (data : IntakeData)
    (price : ℚ) (freshId now : String) :
    (createMatter matters data price freshId now).2.status =
      (if matterConflict data.details then MatterStatus.conflict_flagged
       else MatterStatus.new) := rfl

/-- C1: the created matter's status is `conflict_flagged` iff the details
hold a non-empty `opposingParty` whose normalization (lowercase, all
non-alphanumeric characters removed) contains the normalization of some
blacklist entry as a substring; in every other case the status is `new`. -/
theorem createMatter_status_spec (matters : List Matter) (data : IntakeData)
    (price : ℚ) (freshId now : String) :
    ((createMatter matters data price freshId now).2.status =
        MatterStatus.conflict_flagged ↔
      ∃ op, data.details.opposingParty = some op ∧ op ≠ "" ∧
        ∃ entry ∈ conflictBlacklist, normalize entry <:+: normalize op) ∧
    ((createMatter matters data price freshId now).2.status =
        MatterStatus.conflict_flagged ∨
      (createMatter matters data price freshId now).2.status = MatterStatus.new) := by
  rcases hmc : matterConflict data.details with _ | _
  · rw [createMatter_status_eq, hmc, ← matterConflict_iff data.details, hmc]
    simp
  · rw [createMatter_status_eq, hmc, ← matterConflict_iff data.details, hmc]
    simp

/-- Source `SERVICES.find(s => s.id === serviceId)` for a possibly null selection. -/
def findService (serviceId : Option String) : Option ServiceTrack :=
  SERVICES.find? (fun s => decide (some s.id = serviceId))

/-- Source `service?.basePrice || 0`. -/
def baseOrZero (serviceId : Option String) : ℚ :=
  match findService serviceId with
  | some s => s.basePrice
  | none => 0

/-- Source `data.details.pageCount > 10` with JS comparison semantics: against an
absent field (`undefined`) or a `NaN` parse the comparison is false. -/
def pageCountGtTen : Option Int → Bool
  | none => false
  | some n => decide (10 < n)

/-- Source `(data.details.pageCount - 10) * 10`, read only under the guard above. -/
def pageOverage : Option Int → ℚ
  | none => 0
  | some n => ((n : ℚ) - 10) * 10

/-- Result record of `PaymentGateway.priceBreakdown`. -/
structure PriceBreakdown where
  base : ℚ
  complexity : ℚ
  rush : ℚ
  total : ℚ
deriving DecidableEq, Repr

/-- Source `PaymentGateway.priceBreakdown` (source lines 1333-1351): the two `if`
statements reassign `complexity` in sequence, rush adds half the subtotal. -/
def priceBreakdown (serviceId : Option String) (details : Details)
    (urgency : Urgency) : PriceBreakdown :=
  let base : ℚ := baseOrZero serviceId
  let complexity0 : ℚ := 0
  let complexity1 : ℚ :=
    if serviceId = some "contract_review" ∧ pageCountGtTen details.pageCount then
      pageOverage details.pageCount
    else complexity0
  let complexity : ℚ :=
    if serviceId = some "filing_lawsuit" then 200 else complexity1
  let subtotal : ℚ := base + complexity
  let rush : ℚ := if urgency = Urgency.rush then subtotal * 0.5 else 0
  ⟨base, complexity, rush, subtotal + rush⟩

/-- The `displayPrice` computed by `EngagementLetter` (source lines
1202-1208): `service?.basePrice || 0` plus the page-count overage for
contract review, plus a flat 200 for filing a lawsuit. -/
def displayPrice (serviceId : Option String) (details : Details) : ℚ :=
  let p0 : ℚ := baseOrZero serviceId
  let p1 : ℚ :=
    if serviceId = some "contract_review" ∧ pageCountGtTen details.pageCount then
      p0 + pageOverage details.pageCount
    else p0
  if serviceId = some "filing_lawsuit" then p1 + 200 else p1

/-- The complexity adjustment in the words of the specification:
`(pageCount - 10) * 10` for a contract review of more than ten pages, a
flat 200 for filing a lawsuit, and 0 otherwise. -/
def specComplexityAdj (sid : String) (pageCount : Option Int) : ℚ :=
  if sid = "contract_review" then
    match pageCount with
    | some n => if 10 < n then ((n : ℚ) - 10) * 10 else 0
    | none => 0
  else if sid = "filing_lawsuit" then 200
  else 0

theorem baseOrZero_of_mem (s : ServiceTrack) (hs : s ∈ SERVICES) :
    baseOrZero (some s.id) = s.basePrice := by
  fin_cases hs <;> rfl

/-- C2: for every catalog service, details record and urgency choice, the
checkout total is the base price plus the complexity adjustment, multiplied
by 1.5 exactly when rush is selected, and the rush fee is half of the
base-plus-complexity subtotal. -/
theorem priceBreakdown_total_spec (s : ServiceTrack) (hs : s ∈ SERVICES)
    (details : Details) (urgency : Urgency) :
    (priceBreakdown (some s.id) details urgency).total =
      (s.basePrice + specComplexityAdj s.id details.pageCount) *
        (if urgency = Urgency.rush then 3 / 2 else 1) ∧
    (priceBreakdown (some s.id) details urgency).rush =
      if urgency = Urgency.rush then
        (s.basePrice + specComplexityAdj s.id details.pageCount) / 2
      else 0 := by
  have hb := baseOrZero_of_mem s hs
  rcases hpc : details.pageCount with _ | n <;>
    cases urgency <;>
      simp only [priceBreakdown, specComplexityAdj, hb, hpc, pageCountGtTen,
        pageOverage] <;>
    split_ifs <;> simp_all <;> constructor <;> (norm_num; try ring)

/-- A concrete instantiation of the C2 theorem: a 14-page contract review
with rush turnaround costs (250 + 40) * 1.5. -/
theorem priceBreakdown_total_spec_witness :
    (priceBreakdown (some "contract_review") ⟨none, some "facts", some 14⟩
        Urgency.rush).total =
      (250 + specComplexityAdj "contract_review" (some 14)) *
        (if Urgency.rush = Urgency.rush then 3 / 2 else 1) ∧
    (priceBreakdown (some "contract_review") ⟨none, some "facts", some 14⟩
        Urgency.rush).rush =
      if Urgency.rush = Urgency.rush then
        (250 + specComplexityAdj "contract_review" (some 14)) / 2
      else 0 :=
  priceBreakdown_total_spec ⟨"contract_review", "Contract Review", 250⟩
    (by simp [SERVICES]) ⟨none, some "facts", some 14⟩ Urgency.rush

/-- C9: the "Est. Total" written into the engagement letter equals the
payment step's checkout total under standard urgency, for every service
selection and details record. -/
theorem displayPrice_eq_standard_total (serviceId : Option String)
    (details : Details) :
    displayPrice serviceId details =
      (priceBreakdown serviceId details Urgency.standard).total := by
  simp only [displayPrice, priceBreakdown]
  split_ifs <;> simp_all

/-- Source `String.prototype.trim` on character lists: drop leading and trailing
whitespace. -/
def trimChars (l : List Char) : List Char :=
  ((l.dropWhile Char.isWhitespace).reverse.dropWhile Char.isWhitespace).reverse

/-- Source `s.toLowerCase().trim()` as used in the signature comparison. -/
def lowerTrim (s : String) : List Char :=
  trimChars (s.toList.map Char.toLower)

/-- Source `EngagementLetter.canSign` (source line 1210): consent checkbox checked
and the typed signature equal to the contact name up to case and
surrounding whitespace; the Sign & Continue button is disabled otherwise. -/
def canSign (agreed : Bool) (signature contactName : String) : Bool :=
  agreed && decide (lowerTrim signature = lowerTrim contactName)

/-- C3: whenever the trimmed case-insensitive comparison of the typed
signature against the contact name fails, signing is impossible — the sign
button stays disabled whatever the state of the consent checkbox. -/
theorem canSign_requires_match (agreed : Bool) (signature contactName : String)
    (h : lowerTrim signature ≠ lowerTrim contactName) :
    canSign agreed signature contactName = false := by
  simp [canSign, h]

/-- A concrete instantiation of the C3 theorem: an extra interior space in
the typed name keeps the button disabled even with consent given. -/
theorem canSign_requires_match_witness :
    canSign true "Jane  Doe" "Jane Doe" = false :=
  canSign_requires_match true "Jane  Doe" "Jane Doe" (by decide)

/-- JS truthiness of an optional string field: an absent field and the
empty string are falsy, every other string is truthy. -/
def truthyStr : Option String → Bool
  | none => false
  | some s => if s = "" then false else true

/-- The top-level views of the single-page app. -/
inductive View
  | home
  | auth
  | notEligible
  | intake
  | success
  | portal
  | admin
deriving DecidableEq, Repr

/-- Source `interface AiRecommendation`.  The fields arrive by parsing the
AI's JSON and are used without validation, so all of them are plain
strings here. -/
structure AiRecommendation where
  serviceId : String
  reasoning : String
  confidence : String
deriving DecidableEq, Repr

/-- Source `type UserRole`. -/
inductive UserRole
  | guest
  | client
  | admin
deriving DecidableEq, Repr

/-- Source `interface UserProfile`. -/
structure UserProfile where
  id : String
  email : String
  role : UserRole
  name : String
deriving DecidableEq, Repr

/-- The state held by the `App` component plus the backend matter store. -/
structure AppState where
  view : View
  intakeStep : Nat
  user : Option UserProfile
  aiRecommendation : Option AiRecommendation
  showFullCatalog : Bool
  navTarget : Option Nat
  intakeData : IntakeData
  matters : List Matter
deriving DecidableEq, Repr

/-- The blank intake record `App` starts from. -/
def initialIntakeData : IntakeData :=
  { jurisdiction := Jurisdiction.TX
    serviceId := none
    triageReasoning := none
    urgency := Urgency.standard
    details := ⟨none, none, none⟩
    documents := []
    contact := ⟨"", "", ""⟩
    signature := none }

/-- Source `App.handleJurisdiction` (source lines 1732-1742): "Other State" routes
to the ineligibility screen; an accepted state is recorded and the wizard
moves to the triage step, clearing any downstream recommendation and
service selection. -/
def handleJurisdiction (st : AppState) (j : Jurisdiction) : AppState :=
  if j = Jurisdiction.OTHER then { st with view := View.notEligible }
  else
    { st with
      intakeData := { st.intakeData with jurisdiction := j, serviceId := none }
      intakeStep := 1
      aiRecommendation := none }

/-- Source `App.handleTriageResult` (source lines 1744-1763): always stores the
typed description, shows the catalog immediately for a low-confidence or
missing recommendation, and advances to the service step. -/
def handleTriageResult (st : AppState) (rec : Option AiRecommendation)
    (description : String) : AppState :=
  let st1 := { st with intakeData := { st.intakeData with
    details := { st.intakeData.details with description := some description } } }
  match rec with
  | some r =>
      { st1 with
        aiRecommendation := some r
        intakeData := { st1.intakeData with triageReasoning := some r.reasoning }
        showFullCatalog := if r.confidence = "low" then true else false
        intakeStep := 2 }
  | none =>
      { st1 with
        aiRecommendation := none
        showFullCatalog := true
        intakeStep := 2 }

/-- One completed run of the try block of `TriageAssistant.handleAnalyze`:
either some exception was thrown (network, API, or JSON-parse failure), or
a JSON object was obtained whose `serviceId` field may be absent. -/
inductive TriageOutcome
  | threw
  | parsed (serviceId : Option String) (confidence : String) (reasoning : String)
deriving DecidableEq, Repr

/-- The `(recommendation, description)` pair `handleAnalyze` hands to
`onResult`, or `none` when the guard `if (!input.trim()) return` fires and
no callback happens at all.  A `serviceId` that is absent or empty (falsy)
takes the same `onResult(null, input)` path as a thrown exception. -/
def handleAnalyze (input : String) (outcome : TriageOutcome) :
    Option (Option AiRecommendation × String) :=
  if trimChars input.toList = [] then none
  else some (match outcome with
    | TriageOutcome.threw => (none, input)
    | TriageOutcome.parsed sid conf reas =>
        match sid with
        | some s => if s = "" then (none, input) else (some ⟨s, reas, conf⟩, input)
        | none => (none, input))

/-- The outcomes of the AI call that the spec calls failures: a throw, or a
response without a (truthy) serviceId. -/
def triageFailed : TriageOutcome → Bool
  | TriageOutcome.threw => true
  | TriageOutcome.parsed none _ _ => true
  | TriageOutcome.parsed (some s) _ _ => if s = "" then true else false

/-- What the service step can show. -/
inductive ServiceStepView
  | recommendationCard (s : ServiceTrack)
  | catalog
  | empty
deriving DecidableEq, Repr

/-- The rendering of wizard step 2 (source lines 1947-1961): the
recommendation card when a recommendation exists and the catalog was not
requested — except that `ServiceRecommendation` returns null when the
recommended id is not found in `SERVICES` — and the catalog otherwise. -/
def renderServiceStep (st : AppState) : ServiceStepView :=
  match st.aiRecommendation with
  | some rec =>
      if st.showFullCatalog then ServiceStepView.catalog
      else
        match SERVICES.find? (fun s => decide (s.id = rec.serviceId)) with
        | some s => ServiceStepView.recommendationCard s
        | none => ServiceStepView.empty
  | none => ServiceStepView.catalog

/-- C4: selecting "Other State" routes to the ineligibility screen without
advancing the wizard, while selecting TX, FL, or CO records the chosen
jurisdiction and advances the wizard to the triage step (index 1). -/
theorem handleJurisdiction_spec (st : AppState) (j : Jurisdiction) :
    ((handleJurisdiction st Jurisdiction.OTHER).view = View.notEligible ∧
     (handleJurisdiction st Jurisdiction.OTHER).intakeStep = st.intakeStep) ∧
    (j ≠ Jurisdiction.OTHER →
      (handleJurisdiction st j).intakeData.jurisdiction = j ∧
      (handleJurisdiction st j).intakeStep = 1 ∧
      (handleJurisdiction st j).view = st.view) := by
  constructor
  · simp [handleJurisdiction]
  · intro hj
    simp [handleJurisdiction, hj]

/-- A state from which the wizard examples below start: the intake view on
the triage step. -/
def exampleState : AppState :=
  { view := View.intake
    intakeStep := 1
    user := none
    aiRecommendation := none
    showFullCatalog := false
    navTarget := none
    intakeData := initialIntakeData
    matters := [] }

/-- A concrete instantiation of the C4 theorem for the accepted state TX. -/
theorem handleJurisdiction_spec_witness :
    (handleJurisdiction exampleState Jurisdiction.TX).intakeData.jurisdiction =
      Jurisdiction.TX ∧
    (handleJurisdiction exampleState Jurisdiction.TX).intakeStep = 1 ∧
    (handleJurisdiction exampleState Jurisdiction.TX).view = exampleState.view :=
  (handleJurisdiction_spec exampleState Jurisdiction.TX).2 (by decide)

/-- C5: whenever the AI call throws — for any reason — or the parsed
response lacks a serviceId, the triage step hands `onResult` the same
`(null, input)` pair, and the wizard advances to the service step with no
recommendation, showing the full manual catalog and keeping the typed
description in `details.description`. -/
theorem triage_failure_falls_back (st : AppState) (input : String)
    (outcome : TriageOutcome) (hin : trimChars input.toList ≠ [])
    (hfail : triageFailed outcome = true) :
    handleAnalyze input outcome = some (none, input) ∧
    (handleTriageResult st none input).intakeStep = 2 ∧
    (handleTriageResult st none input).aiRecommendation = none ∧
    (handleTriageResult st none input).showFullCatalog = true ∧
    (handleTriageResult st none input).intakeData.details.description = some input ∧
    renderServiceStep (handleTriageResult st none input) = ServiceStepView.catalog := by
  have hin2 : trimChars input.data ≠ [] := hin
  refine ⟨?_, by simp [handleTriageResult], by simp [handleTriageResult],
    by simp [handleTriageResult], by simp [handleTriageResult],
    by simp [handleTriageResult, renderServiceStep]⟩
  rcases outcome with _ | ⟨sid, conf, reas⟩
  · simp [handleAnalyze, hin2]
  · rcases sid with _ | s
    · simp [handleAnalyze, hin2]
    · have hs : s = "" := by
        by_contra hne
        simp [triageFailed, hne] at hfail
      simp [handleAnalyze, hin2, hs]

/-- A concrete instantiation of the C5 theorem: a thrown network error on a
non-blank description. -/
theorem triage_failure_falls_back_witness :
    handleAnalyze "I was sued" TriageOutcome.threw = some (none, "I was sued") ∧
    (handleTriageResult exampleState none "I was sued").intakeStep = 2 ∧
    (handleTriageResult exampleState none "I was sued").aiRecommendation = none ∧
    (handleTriageResult exampleState none "I was sued").showFullCatalog = true ∧
    (handleTriageResult exampleState none "I was sued").intakeData.details.description =
      some "I was sued" ∧
    renderServiceStep (handleTriageResult exampleState none "I was sued") =
      ServiceStepView.catalog :=
  triage_failure_falls_back exampleState "I was sued" TriageOutcome.threw
    (by decide) (by decide)

/-- C8: `createMatter` appends exactly one matter to the store and returns
it; the new matter's audit log holds a MATTER_CREATED and an
AGREEMENT_SIGNED event, and a CONFLICT_DETECTED event exactly when the
matter is conflict-flagged; every previously stored matter (with its audit
log) is untouched, and `getMatters`, the only other state-reading
operation, returns the store unchanged. -/
theorem createMatter_append_only (matters : List Matter) (data : IntakeData)
    (price : ℚ) (freshId now : String) :
    (createMatter matters data price freshId now).1 =
      matters ++ [(createMatter matters data price freshId now).2] ∧
    "MATTER_CREATED" ∈
      ((createMatter matters data price freshId now).2.auditLog.map AuditEvent.action) ∧
    "AGREEMENT_SIGNED" ∈
      ((createMatter matters data price freshId now).2.auditLog.map AuditEvent.action) ∧
    ("CONFLICT_DETECTED" ∈
        ((createMatter matters data price freshId now).2.auditLog.map AuditEvent.action) ↔
      (createMatter matters data price freshId now).2.status =
        MatterStatus.conflict_flagged) ∧
    getMatters (createMatter matters data price freshId now).1 =
      matters ++ [(createMatter matters data price freshId now).2] ∧
    getMatters matters = matters := by
  rcases hmc : matterConflict data.details with _ | _ <;>
    simp [createMatter, getMatters, hmc]

/-- C10: if the parsed AI response carries a serviceId that is not one of
the catalog ids and a confidence other than "low", the wizard advances to
the service step but renders neither the recommendation card nor the
catalog. -/
theorem unknown_recommendation_renders_nothing (st : AppState)
    (rec : AiRecommendation) (description : String)
    (hid : rec.serviceId ∉ SERVICES.map ServiceTrack.id)
    (hconf : rec.confidence ≠ "low") :
    (handleTriageResult st (some rec) description).intakeStep = 2 ∧
    renderServiceStep (handleTriageResult st (some rec) description) =
      ServiceStepView.empty := by
  have hfind : SERVICES.find? (fun s => decide (s.id = rec.serviceId)) = none := by
    rw [List.find?_eq_none]
    intro s hsmem
    simp only [decide_eq_true_eq]
    intro hEq
    exact hid (hEq ▸ List.mem_map_of_mem ServiceTrack.id hsmem)
  constructor
  · simp [handleTriageResult]
  · simp [handleTriageResult, renderServiceStep, hconf, hfind]

/-- A concrete instantiation of the C10 theorem: the AI recommends
`business_formation`, an id the catalog does not offer, with high
confidence. -/
theorem unknown_recommendation_renders_nothing_witness :
    (handleTriageResult exampleState
        (some ⟨"business_formation", "Forming an LLC fits best.", "high"⟩)
        "I want to start an LLC").intakeStep = 2 ∧
    renderServiceStep (handleTriageResult exampleState
        (some ⟨"business_formation", "Forming an LLC fits best.", "high"⟩)
        "I want to start an LLC") = ServiceStepView.empty :=
  unknown_recommendation_renders_nothing exampleState
    ⟨"business_formation", "Forming an LLC fits best.", "high"⟩
    "I want to start an LLC" (by decide) (by decide)

/-- Source `App.handleRecommendationConfirm`: accepts the recommended service and
moves to the details step; does nothing when no recommendation is held. -/
def handleRecommendationConfirm (st : AppState) : AppState :=
  match st.aiRecommendation with
  | some r =>
      { st with
        intakeData := { st.intakeData with serviceId := some r.serviceId }
        intakeStep := 3 }
  | none => st

/-- Source `App.handleServiceSelect`: records the chosen service — resetting the
pricing-dependent details (keeping only the description), the documents and
the signature when the service actually changes — and moves to details. -/
def handleServiceSelect (st : AppState) (sid : String) : AppState :=
  let st1 := { st with intakeData := { st.intakeData with serviceId := some sid } }
  let st2 :=
    if some sid ≠ st.intakeData.serviceId then
      { st1 with intakeData := { st1.intakeData with
          serviceId := some sid
          details := ⟨none, st1.intakeData.details.description, none⟩
          documents := []
          signature := none } }
    else st1
  { st2 with intakeStep := 3 }

/-- Source `App.handleSignature`: stores a signature block built from the contact
name and the clock, then moves to the payment step. -/
def handleSignature (st : AppState) (now : String) : AppState :=
  { st with
    intakeData := { st.intakeData with
      signature := some ⟨st.intakeData.contact.name, now, true⟩ }
    intakeStep := 6 }

/-- Source `App.handleCheckout`: submits the matter to the backend, signs the new
client in, and leaves the wizard for the success screen. -/
def handleCheckout (st : AppState) (totalPrice : ℚ) (freshId now : String) :
    AppState :=
  { st with
    matters := (createMatter st.matters st.intakeData totalPrice freshId now).1
    user := some ⟨"client-new", st.intakeData.contact.email, UserRole.client,
      st.intakeData.contact.name⟩
    view := View.success }

/-- Source `App.handleNavRequest` (source lines 1832-1835): progress-bar requests
are dropped unless the target step is strictly earlier than the current
one; otherwise the confirmation modal opens on that target. -/
def handleNavRequest (st : AppState) (stepIndex : Nat) : AppState :=
  if st.intakeStep ≤ stepIndex then st
  else { st with navTarget := some stepIndex }

/-- Source `App.handleNavConfirm`: jumps back to the confirmed earlier step,
clearing the recommendation and service selection when returning to
jurisdiction or triage and the signature whenever the target is before the
payment step. -/
def handleNavConfirm (st : AppState) : AppState :=
  match st.navTarget with
  | none => st
  | some t =>
      let st1 :=
        if t ≤ 1 then
          { st with
            aiRecommendation := none
            intakeData := { st.intakeData with serviceId := none }
            showFullCatalog := false }
        else st
      let st2 :=
        if t < 6 then
          { st1 with intakeData := { st1.intakeData with signature := none } }
        else st1
      { st2 with intakeStep := t, navTarget := none }

/-- Closing the confirmation modal without navigating. -/
def handleNavCancel (st : AppState) : AppState := { st with navTarget := none }

/-- Source `App.startIntake`: opens the wizard at the jurisdiction step with a
fresh intake record. -/
def startIntakeFn (st : AppState) : AppState :=
  { st with
    view := View.intake
    intakeStep := 0
    aiRecommendation := none
    showFullCatalog := false
    intakeData := initialIntakeData }

/-- Source `App.handleViewChange` (header navigation): portal and admin require a
signed-in user, everything else switches directly. -/
def handleViewChange (st : AppState) (v : View) : AppState :=
  if (v = View.portal ∨ v = View.admin) ∧ st.user = none then
    { st with view := View.auth }
  else { st with view := v }

/-- Source `App.handleLogin`. -/
def handleLogin (st : AppState) (u : UserProfile) : AppState :=
  { st with
    user := some u
    view := if u.role = UserRole.admin then View.admin else View.portal }

/-- Source `App.handleLogout`. -/
def handleLogout (st : AppState) : AppState :=
  { st with user := none, view := View.home }

/-- The user interactions that drive the app.  Data produced by the
environment (AI results, clock readings, fresh ids, typed text) rides on
the events. -/
inductive Event
  | startIntake
  | jurisdictionSelect (j : Jurisdiction)
  | triageResult (rec : Option AiRecommendation) (description : String)
  | triageSkip
  | recommendationConfirm
  | serviceSelect (sid : String)
  | detailsNext
  | contactNext
  | signBack
  | signSubmit (now : String)
  | checkout (totalPrice : ℚ) (freshId now : String)
  | navRequest (stepIndex : Nat)
  | navConfirm
  | navCancel
  | viewChange (v : View)
  | login (u : UserProfile)
  | logout
deriving Repr

/-- A wizard step's controls are reachable exactly when the intake view is
shown, the go-back confirmation modal is closed (it overlays the whole
page), and that step is the current one (source lines 1933-1994). -/
abbrev stepActive (st : AppState) (step : Nat) : Prop :=
  st.view = View.intake ∧ st.navTarget = none ∧ st.intakeStep = step

/-- The modal is closed, so page-level controls are reachable. -/
abbrev modalClosed (st : AppState) : Prop := st.navTarget = none

/-- One user interaction applied to the app state.  Each handler fires only
when its control is rendered and reachable; otherwise the event is a
no-op.  The details Continue button is additionally disabled until the
description is non-empty (`disabled={!data.description}`). -/
def applyEvent (st : AppState) (e : Event) : AppState :=
  match e with
  | Event.startIntake =>
      if st.view = View.home ∧ modalClosed st then startIntakeFn st else st
  | Event.jurisdictionSelect j =>
      if stepActive st 0 then handleJurisdiction st j else st
  | Event.triageResult rec d =>
      if stepActive st 1 then handleTriageResult st rec d else st
  | Event.triageSkip =>
      if stepActive st 1 then
        { st with aiRecommendation := none, showFullCatalog := true, intakeStep := 2 }
      else st
  | Event.recommendationConfirm =>
      if stepActive st 2 then handleRecommendationConfirm st else st
  | Event.serviceSelect sid =>
      if stepActive st 2 then handleServiceSelect st sid else st
  | Event.detailsNext =>
      if stepActive st 3 ∧ truthyStr st.intakeData.details.description then
        { st with intakeStep := 4 }
      else st
  | Event.contactNext =>
      if stepActive st 4 then { st with intakeStep := 5 } else st
  | Event.signBack =>
      if stepActive st 5 then { st with intakeStep := 4 } else st
  | Event.signSubmit now =>
      if stepActive st 5 then handleSignature st now else st
  | Event.checkout p fid now =>
      if stepActive st 6 then handleCheckout st p fid now else st
  | Event.navRequest i =>
      if st.view = View.intake ∧ modalClosed st then handleNavRequest st i else st
  | Event.navConfirm =>
      if st.view = View.intake ∧ st.navTarget ≠ none then handleNavConfirm st else st
  | Event.navCancel =>
      if st.view = View.intake ∧ st.navTarget ≠ none then handleNavCancel st else st
  | Event.viewChange v =>
      if modalClosed st then handleViewChange st v else st
  | Event.login u =>
      if st.view = View.auth ∧ modalClosed st then handleLogin st u else st
  | Event.logout =>
      if modalClosed st then handleLogout st else st

/-- Folding a user-interaction trace from a starting state. -/
def runEvents (st : AppState) (es : List Event) : AppState :=
  es.foldl applyEvent st

/-- Invariant: whenever the go-back modal is open, its pending target lies
strictly before the current step. -/
def navInv (st : AppState) : Prop :=
  ∀ t, st.navTarget = some t → t < st.intakeStep

theorem navInv_of_none (st : AppState) (h : st.navTarget = none) : navInv st := by
  intro t ht
  rw [h] at ht
  cases ht

theorem applyEvent_bound (st : AppState) (e : Event) (hnav : navInv st) :
    (applyEvent st e).intakeStep ≤ st.intakeStep + 1 ∧ navInv (applyEvent st e) := by
  cases e with
  | startIntake =>
      simp only [applyEvent]
      split_ifs with h
      · obtain ⟨hv, hm⟩ := h
        exact ⟨Nat.zero_le _, navInv_of_none _ hm⟩
      · exact ⟨Nat.le_succ _, hnav⟩
  | jurisdictionSelect j =>
      simp only [applyEvent]
      split_ifs with h
      · obtain ⟨hv, hm, hs⟩ := h
        constructor
        · simp only [handleJurisdiction]
          split_ifs
          · exact Nat.le_succ _
          · exact Nat.succ_le_succ (Nat.zero_le _)
        · simp only [handleJurisdiction]
          split_ifs
          · exact navInv_of_none _ hm
          · exact navInv_of_none _ hm
      · exact ⟨Nat.le_succ _, hnav⟩
  | triageResult rec d =>
      simp only [applyEvent]
      split_ifs with h
      · obtain ⟨hv, hm, hs⟩ := h
        rcases rec with _ | r <;>
          exact ⟨by simp [handleTriageResult, hs],
            navInv_of_none _ (by simp [handleTriageResult, hm])⟩
      · exact ⟨Nat.le_succ _, hnav⟩
  | triageSkip =>
      simp only [applyEvent]
      split_ifs with h
      · obtain ⟨hv, hm, hs⟩ := h
        exact ⟨by simp [hs], navInv_of_none _ hm⟩
      · exact ⟨Nat.le_succ _, hnav⟩
  | recommendationConfirm =>
      simp only [applyEvent]
      split_ifs with h
      · obtain ⟨hv, hm, hs⟩ := h
        rcases har : st.aiRecommendation with _ | r
        · have heq : handleRecommendationConfirm st = st := by
            simp [handleRecommendationConfirm, har]
          rw [heq]
          exact ⟨Nat.le_succ _, hnav⟩
        · exact ⟨by simp [handleRecommendationConfirm, har, hs],
            navInv_of_none _ (by simp [handleRecommendationConfirm, har, hm])⟩
      · exact ⟨Nat.le_succ _, hnav⟩
  | serviceSelect sid =>
      simp only [applyEvent]
      split_ifs with h
      · obtain ⟨hv, hm, hs⟩ := h
        refine ⟨by simp [handleServiceSelect, hs], navInv_of_none _ ?_⟩
        simp only [handleServiceSelect]
        split_ifs <;> simp [hm]
      · exact ⟨Nat.le_succ _, hnav⟩
  | detailsNext =>
      simp only [applyEvent]
      split_ifs with h
      · obtain ⟨⟨hv, hm, hs⟩, hd⟩ := h
        exact ⟨by simp [hs], navInv_of_none _ hm⟩
      · exact ⟨Nat.le_succ _, hnav⟩
  | contactNext =>
      simp only [applyEvent]
      split_ifs with h
      · obtain ⟨hv, hm, hs⟩ := h
        exact ⟨by simp [hs], navInv_of_none _ hm⟩
      · exact ⟨Nat.le_succ _, hnav⟩
  | signBack =>
      simp only [applyEvent]
      split_ifs with h
      · obtain ⟨hv, hm, hs⟩ := h
        exact ⟨by simp [hs], navInv_of_none _ hm⟩
      · exact ⟨Nat.le_succ _, hnav⟩
  | signSubmit now =>
      simp only [applyEvent]
      split_ifs with h
      · obtain ⟨hv, hm, hs⟩ := h
        exact ⟨by simp [handleSignature, hs], navInv_of_none _ hm⟩
      · exact ⟨Nat.le_succ _, hnav⟩
  | checkout p fid now =>
      simp only [applyEvent]
      split_ifs with h
      · obtain ⟨hv, hm, hs⟩ := h
        exact ⟨Nat.le_succ _, navInv_of_none _ hm⟩
      · exact ⟨Nat.le_succ _, hnav⟩
  | navRequest i =>
      simp only [applyEvent]
      split_ifs with h
      · obtain ⟨hv, hm⟩ := h
        simp only [handleNavRequest]
        split_ifs with hle
        · exact ⟨Nat.le_succ _, hnav⟩
        · constructor
          · exact Nat.le_succ _
          · intro t ht
            simp at ht ⊢
            omega
      · exact ⟨Nat.le_succ _, hnav⟩
  | navConfirm =>
      simp only [applyEvent]
      split_ifs with h
      · obtain ⟨hv, hm⟩ := h
        rcases hnt : st.navTarget with _ | t0
        · exact absurd hnt hm
        · have ht0 := hnav t0 hnt
          constructor
          · simp only [handleNavConfirm, hnt]
            omega
          · simp only [handleNavConfirm, hnt]
            exact navInv_of_none _ (by simp)
      · exact ⟨Nat.le_succ _, hnav⟩
  | navCancel =>
      simp only [applyEvent]
      split_ifs with h
      · exact ⟨Nat.le_succ _, navInv_of_none _ rfl⟩
      · exact ⟨Nat.le_succ _, hnav⟩
  | viewChange v =>
      simp only [applyEvent]
      split_ifs with h
      · simp only [handleViewChange]
        split_ifs <;> exact ⟨Nat.le_succ _, navInv_of_none _ h⟩
      · exact ⟨Nat.le_succ _, hnav⟩
  | login u =>
      simp only [applyEvent]
      split_ifs with h
      · obtain ⟨hv, hm⟩ := h
        exact ⟨Nat.le_succ _, navInv_of_none _ hm⟩
      · exact ⟨Nat.le_succ _, hnav⟩
  | logout =>
      simp only [applyEvent]
      split_ifs with h
      · exact ⟨Nat.le_succ _, navInv_of_none _ h⟩
      · exact ⟨Nat.le_succ _, hnav⟩

theorem navRequest_ignored (st : AppState) (i : Nat) (h : st.intakeStep ≤ i) :
    applyEvent st (Event.navRequest i) = st := by
  simp only [applyEvent, handleNavRequest]
  split_ifs <;> rfl

theorem navInv_runEvents (st : AppState) (es : List Event) (hnav : navInv st) :
    navInv (runEvents st es) := by
  induction es generalizing st with
  | nil => exact hnav
  | cons e es ih => exact ih _ (applyEvent_bound st e hnav).2

theorem runEvents_append (st : AppState) (l1 l2 : List Event) :
    runEvents st (l1 ++ l2) = runEvents (runEvents st l1) l2 := by
  simp [runEvents, List.foldl_append]

theorem take_reach (st : AppState) (es : List Event) (hnav : navInv st)
    (n : Nat) :
    (runEvents st (es.take (n + 1))).intakeStep ≤
      (runEvents st (es.take n)).intakeStep + 1 := by
  rw [List.take_succ]
  rcases hg : es[n]? with _ | e
  · simp only [Option.toList, List.append_nil]
    exact Nat.le_succ _
  · simp only [Option.toList]
    rw [runEvents_append]
    exact (applyEvent_bound _ e (navInv_runEvents st _ hnav)).1

theorem runEvents_reach (st : AppState) (es : List Event) (hnav : navInv st)
    (h0 : st.intakeStep = 0) (j : Nat)
    (hj : j ≤ (runEvents st es).intakeStep) :
    ∃ n, n ≤ es.length ∧ (runEvents st (es.take n)).intakeStep = j := by
  have key : ∀ N, ∀ k, k ≤ (runEvents st (es.take N)).intakeStep →
      ∃ n, n ≤ N ∧ (runEvents st (es.take n)).intakeStep = k := by
    intro N
    induction N with
    | zero =>
        intro k hk
        refine ⟨0, Nat.le_refl 0, ?_⟩
        simp only [List.take_zero] at hk ⊢
        simp only [runEvents, List.foldl_nil] at hk ⊢
        omega
    | succ N ih =>
        intro k hk
        by_cases hle : k ≤ (runEvents st (es.take N)).intakeStep
        · obtain ⟨n, hn, hfn⟩ := ih k hle
          exact ⟨n, Nat.le_succ_of_le hn, hfn⟩
        · have hstep := take_reach st es hnav N
          refine ⟨N + 1, Nat.le_refl _, ?_⟩
          omega
  have hfin := key es.length j (by rwa [List.take_length])
  exact hfin

/-- C6: the wizard's step index only moves forward one step at a time along
the fixed order jurisdiction → triage → service → details → contact →
sign → pay: under the invariant that a pending go-back target is strictly
earlier than the current step, every interaction changes the step index by
at most +1; progress-bar requests are ignored unless their target is
strictly earlier; and consequently along every interaction trace from a
fresh wizard each step value up to the one reached is visited, so a later
step is never reached without passing through all earlier ones. -/
theorem wizard_navigation_sequential :
    (∀ (st : AppState) (e : Event), navInv st →
      (applyEvent st e).intakeStep ≤ st.intakeStep + 1) ∧
    (∀ (st : AppState) (i : Nat), st.intakeStep ≤ i →
      applyEvent st (Event.navRequest i) = st) ∧
    (∀ (st : AppState) (es : List Event), navInv st → st.intakeStep = 0 →
      ∀ j, j ≤ (runEvents st es).intakeStep →
        ∃ n, n ≤ es.length ∧ (runEvents st (es.take n)).intakeStep = j) :=
  ⟨fun st e h => (applyEvent_bound st e h).1,
   fun st i h => navRequest_ignored st i h,
   fun st es hnav h0 j hj => runEvents_reach st es hnav h0 j hj⟩

/-- The state the app boots in. -/
def freshAppState : AppState :=
  { view := View.home
    intakeStep := 0
    user := none
    aiRecommendation := none
    showFullCatalog := false
    navTarget := none
    intakeData := initialIntakeData
    matters := [] }

/-- A short concrete interaction trace: open the wizard, pick Texas, skip
the AI triage. -/
def demoTrace : List Event :=
  [Event.startIntake, Event.jurisdictionSelect Jurisdiction.TX, Event.triageSkip]

/-- A concrete instantiation of the C6 theorem: a request to jump to the
current step is dropped, a single event moves at most one step forward,
and the demo trace (which ends on step 2) passes through step 1. -/
theorem wizard_navigation_sequential_witness :
    (applyEvent exampleState Event.triageSkip).intakeStep ≤
      exampleState.intakeStep + 1 ∧
    applyEvent exampleState (Event.navRequest 1) = exampleState ∧
    ∃ n, n ≤ demoTrace.length ∧
      (runEvents freshAppState (demoTrace.take n)).intakeStep = 1 :=
  ⟨wizard_navigation_sequential.1 exampleState Event.triageSkip
      (navInv_of_none _ rfl),
   wizard_navigation_sequential.2.1 exampleState 1 (by decide),
   wizard_navigation_sequential.2.2 freshAppState demoTrace
      (navInv_of_none _ rfl) rfl 1 (by decide)⟩

/-- The details step's Continue button (source lines 1014-1020):
`disabled={!data.description}`, so it is enabled exactly when the
description field is truthy; no other field of the form is checked. -/
def detailsContinueEnabled (d : Details) : Bool := truthyStr d.description

/-- A character allowed inside each segment of the email pattern:
anything except whitespace and the at sign (`[^\s@]`). -/
def emailChar (c : Char) : Bool := !c.isWhitespace && c != '@'

/-- Source `ContactForm.validateEmail`, the test of `/^[^\s@]+@[^\s@]+\.[^\s@]+$/`:
the string splits at its first at sign into a non-empty local part without
whitespace or at signs, and a remainder without whitespace or at signs that
contains a dot neither at its first nor at its last position. -/
def validateEmail (s : String) : Bool :=
  let cs := s.toList
  let a := cs.takeWhile (fun c => c != '@')
  match cs.drop a.length with
  | [] => false
  | _ :: r =>
      !a.isEmpty && a.all emailChar && r.all emailChar &&
        ((r.drop 1).dropLast.contains '.')

/-- Source `ContactForm.validatePhone`: exactly ten digit characters after
stripping every non-digit. -/
def validatePhone (s : String) : Bool :=
  decide ((s.toList.filter Char.isDigit).length = 10)

/-- Source `ContactForm.formatPhoneNumber`. -/
def formatPhoneNumber (s : String) : String :=
  let numbers := s.toList.filter Char.isDigit
  if numbers.length ≤ 3 then String.mk numbers
  else if numbers.length ≤ 6 then
    "(" ++ String.mk (numbers.take 3) ++ ") " ++ String.mk (numbers.drop 3)
  else
    "(" ++ String.mk (numbers.take 3) ++ ") " ++
      String.mk ((numbers.drop 3).take 3) ++ "-" ++
      String.mk ((numbers.drop 6).take 4)

/-- Error copy for the email field. -/
def emailErrMsg : String := "Please enter a valid email address."

/-- Error copy for the confirmation field (the apostrophe of the source
text is elided; only its non-emptiness matters). -/
def confirmErrMsg : String := "Email addresses dont match."

/-- Error copy for the phone field. -/
def phoneErrMsg : String := "Please enter a valid 10-digit U.S. phone number."

/-- The state of the mounted `ContactForm`: the contact fields it edits
through `updateIntake`, plus its local confirm-email, error, and touched
state. -/
structure ContactFormState where
  name : String
  email : String
  phone : String
  confirmEmail : String
  errEmail : String
  errConfirm : String
  errPhone : String
  tEmail : Bool
  tConfirm : Bool
  tPhone : Bool
deriving DecidableEq, Repr

/-- On mount, `confirmEmail` is initialised from the stored contact email
(`useState(contact.email || '')`), errors are empty and no field has been
touched yet. -/
def contactFormInit (c : Contact) : ContactFormState :=
  ⟨c.name, c.email, c.phone, c.email, "", "", "", false, false, false⟩

/-- The input events of the contact form; only email, confirm-email and
phone have blur handlers in the source. -/
inductive ContactEvent
  | changeName (v : String)
  | changeEmail (v : String)
  | changeConfirmEmail (v : String)
  | changePhone (v : String)
  | blurEmail
  | blurConfirmEmail
  | blurPhone
deriving Repr

/-- One input event applied to the contact form, following the source
handlers `handleEmailChange`, `handleConfirmEmailChange`,
`handlePhoneChange` and `handleBlur` (JS truthiness of the strings spelled
out). -/
def contactStep (st : ContactFormState) (e : ContactEvent) : ContactFormState :=
  match e with
  | ContactEvent.changeName v => { st with name := v }
  | ContactEvent.changeEmail v =>
      let errC :=
        if st.confirmEmail ≠ "" then
          (if v = st.confirmEmail then "" else confirmErrMsg)
        else st.errConfirm
      let errE :=
        if st.tEmail then (if validateEmail v then "" else emailErrMsg)
        else st.errEmail
      { st with email := v, errConfirm := errC, errEmail := errE }
  | ContactEvent.changeConfirmEmail v =>
      let errC :=
        if st.tConfirm ∨ v ≠ "" then (if v = st.email then "" else confirmErrMsg)
        else st.errConfirm
      { st with confirmEmail := v, errConfirm := errC }
  | ContactEvent.changePhone v =>
      let f := formatPhoneNumber v
      let errP :=
        if st.tPhone then (if validatePhone f then "" else phoneErrMsg)
        else st.errPhone
      { st with phone := f, errPhone := errP }
  | ContactEvent.blurEmail =>
      { st with tEmail := true
                errEmail := if validateEmail st.email then "" else emailErrMsg }
  | ContactEvent.blurConfirmEmail =>
      { st with tConfirm := true
                errConfirm := if st.confirmEmail = st.email then "" else confirmErrMsg }
  | ContactEvent.blurPhone =>
      { st with tPhone := true
                errPhone := if validatePhone st.phone then "" else phoneErrMsg }

/-- Source `ContactForm.isComplete` (source lines 1105-1115), which gates the
Review Agreement button, in source order. -/
def isComplete (st : ContactFormState) : Bool :=
  decide (st.name ≠ "") && decide (st.email ≠ "") &&
  decide (st.confirmEmail ≠ "") && decide (st.phone ≠ "") &&
  decide (st.errEmail = "") && decide (st.errConfirm = "") &&
  decide (st.errPhone = "") &&
  validateEmail st.email && decide (st.confirmEmail = st.email) &&
  validatePhone st.phone

/-- The error fields always reflect the current inputs: email and phone
errors are exactly the message dictated by the current value once touched
(and empty before), and the confirm error is clear whenever the
confirmation is non-empty and matches the email. -/
def contactInv (st : ContactFormState) : Prop :=
  st.errEmail =
    (if st.tEmail then (if validateEmail st.email then "" else emailErrMsg) else "") ∧
  st.errPhone =
    (if st.tPhone then (if validatePhone st.phone then "" else phoneErrMsg) else "") ∧
  (st.confirmEmail ≠ "" → st.confirmEmail = st.email → st.errConfirm = "")

theorem contactInv_init (c : Contact) : contactInv (contactFormInit c) :=
  ⟨rfl, rfl, fun _ _ => rfl⟩

theorem contactInv_step (st : ContactFormState) (e : ContactEvent)
    (h : contactInv st) : contactInv (contactStep st e) := by
  obtain ⟨hE, hP, hC⟩ := h
  cases e with
  | changeName v => exact ⟨hE, hP, hC⟩
  | changeEmail v =>
      refine ⟨?_, hP, ?_⟩
      · by_cases ht : st.tEmail <;> simp [contactStep, ht, hE]
      · intro hne heq
        simp only [contactStep] at hne heq ⊢
        simp [hne, heq]
        intro hv
        exact absurd (heq.trans hv) hne
  | changeConfirmEmail v =>
      refine ⟨hE, hP, ?_⟩
      intro hne heq
      simp only [contactStep] at hne heq ⊢
      simp [hne, heq]
      intro _ hemail
      exact absurd (heq.trans hemail) hne
  | changePhone v =>
      refine ⟨hE, ?_, hC⟩
      by_cases ht : st.tPhone <;> simp [contactStep, ht, hP]
  | blurEmail => exact ⟨rfl, hP, hC⟩
  | blurConfirmEmail =>
      refine ⟨hE, hP, ?_⟩
      intro hne heq
      simp only [contactStep] at hne heq ⊢
      simp [heq]
  | blurPhone => exact ⟨hE, rfl, hC⟩

theorem isComplete_iff (st : ContactFormState) (h : contactInv st) :
    isComplete st = true ↔
      (st.name ≠ "" ∧ st.email ≠ "" ∧ st.confirmEmail ≠ "" ∧ st.phone ≠ "" ∧
       validateEmail st.email = true ∧ st.confirmEmail = st.email ∧
       validatePhone st.phone = true) := by
  obtain ⟨hE, hP, hC⟩ := h
  constructor
  · intro hcomp
    simp only [isComplete, Bool.and_eq_true, decide_eq_true_eq] at hcomp
    tauto
  · rintro ⟨hn, he, hc, hp, hve, hceq, hvp⟩
    have he1 : st.errEmail = "" := by simp [hE, hve]
    have hp1 : st.errPhone = "" := by simp [hP, hvp]
    have hc1 : st.errConfirm = "" := hC hc hceq
    simp only [isComplete, Bool.and_eq_true, decide_eq_true_eq]
    tauto

/-- The contact-form states reachable from mounting the form over a stored
contact record. -/
def runContactForm (c : Contact) (es : List ContactEvent) : ContactFormState :=
  es.foldl contactStep (contactFormInit c)

theorem contactInv_run (c : Contact) (es : List ContactEvent) :
    contactInv (runContactForm c es) := by
  suffices h : ∀ st, contactInv st → contactInv (es.foldl contactStep st) from
    h _ (contactInv_init c)
  induction es with
  | nil => exact fun _ h => h
  | cons e es ih => exact fun st h => ih _ (contactInv_step st e h)

/-- C7: the details step's Continue button is enabled iff the description
is a non-empty string (nothing else on that form is required), and in
every reachable contact-form state the Review Agreement button is enabled
iff name, email, confirmation email and phone are all non-empty, the email
passes the well-formedness test, the confirmation email equals the email,
and the phone holds exactly ten digits. -/
theorem continue_buttons_spec :
    (∀ d : Details, detailsContinueEnabled d = true ↔
      ∃ s, d.description = some s ∧ s ≠ "") ∧
    (∀ (c : Contact) (es : List ContactEvent),
      isComplete (runContactForm c es) = true ↔
        ((runContactForm c es).name ≠ "" ∧ (runContactForm c es).email ≠ "" ∧
         (runContactForm c es).confirmEmail ≠ "" ∧
         (runContactForm c es).phone ≠ "" ∧
         validateEmail (runContactForm c es).email = true ∧
         (runContactForm c es).confirmEmail = (runContactForm c es).email ∧
         validatePhone (runContactForm c es).phone = true)) := by
  constructor
  · intro d
    rcases hd : d.description with _ | s
    · simp [detailsContinueEnabled, truthyStr, hd]
    · by_cases hs : s = "" <;> simp [detailsContinueEnabled, truthyStr, hd, hs]
  · intro c es
    exact isComplete_iff _ (contactInv_run c es)

end LegalTrack
